import Mathlib

/-!
Shallow embedding of the assessment/quiz platform backend
(`app/api/attempts.py`, `app/api/answers.py`, `app/api/test_questions.py`,
`app/api/teacher_tests.py`, `app/api/questions.py`, `app/db/models.py`).

The database is modelled as lists of rows (one list per table).  Every
endpoint is translated into a pure function `DB → … → Except HErr (DB × out)`:
each endpoint performs at most one `session.commit()`, at its very end, and
every `http_error` raised before that commit leaves the store untouched
(SQLAlchemy rolls the uncommitted session back), so `Except.error e`
faithfully means "HTTP error raised, no rows written".
-/

namespace Quiz

/-- Error raised by `app.core.errors.http_error(status_code, message, details)`.
`detail` is the `details["message"]` / `details["required_permission"]` payload
(empty string when the Python call passes no details). -/
structure HErr where
  status : Nat
  message : String
  detail : String
deriving DecidableEq, Repr

/-- Row of table `courses` (fields used by the core). -/
structure Course where
  id : Int
  teacher_id : Int
  is_deleted : Bool
deriving DecidableEq, Repr

/-- Row of table `questions`. -/
structure Question where
  id : Int
  author_id : Int
  is_deleted : Bool
deriving DecidableEq, Repr

/-- Row of table `question_versions` (primary key `(question_id, version)`). -/
structure QuestionVersion where
  question_id : Int
  version : Int
  title : String
  body : String
  opts : List String
  correct_index : Int
deriving DecidableEq, Repr

/-- Row of table `tests`. -/
structure Test where
  id : Int
  course_id : Int
  author_id : Int
  is_active : Bool
  is_deleted : Bool
deriving DecidableEq, Repr

/-- Row of table `test_questions` (primary key `(test_id, question_id)`,
unique `(test_id, position)`). -/
structure TestQuestion where
  test_id : Int
  question_id : Int
  position : Int
deriving DecidableEq, Repr

/-- Column `attempts.status` is constrained to `{'in_progress','finished'}`. -/
inductive AStatus where
  | in_progress : AStatus
  | finished : AStatus
deriving DecidableEq, Repr, BEq

/-- Row of table `attempts` (unique `(test_id, user_id)`). -/
structure Attempt where
  id : Int
  test_id : Int
  user_id : Int
  status : AStatus
deriving DecidableEq, Repr

/-- Row of table `attempt_questions` (primary key `(attempt_id, question_id)`). -/
structure AttemptQuestion where
  attempt_id : Int
  question_id : Int
  question_version : Int
  position : Int
deriving DecidableEq, Repr

/-- Row of table `answers` (autoincrement `id`, unique `(attempt_id, question_id)`). -/
structure Answer where
  id : Int
  attempt_id : Int
  question_id : Int
  question_version : Int
  answer_index : Int
deriving DecidableEq, Repr

/-- The relational store: one list per table, plus the autoincrement
counters for the two tables whose generated ids the core reads back. -/
structure DB where
  courses : List Course
  questions : List Question
  questionVersions : List QuestionVersion
  tests : List Test
  testQuestions : List TestQuestion
  attempts : List Attempt
  attemptQuestions : List AttemptQuestion
  answers : List Answer
  nextAttemptId : Int
  nextAnswerId : Int
deriving DecidableEq, Repr

/-- The value produced by `get_current_user`: identity plus the permission
set carried by the authenticated session. -/
structure CurrentUser where
  user_id : Int
  permissions : List String
deriving DecidableEq, Repr

/-- Predicate `has_perm(current, perm)` — `perm in current["permissions"]`. -/
def has_perm (current : CurrentUser) (perm : String) : Bool :=
  current.permissions.contains perm

/-! ### The concrete `http_error` values raised by the endpoints -/

def errNotFound : HErr := ⟨404, "Not found", ""⟩

def errTestNotActive : HErr := ⟨400, "Bad Request", "Test is not active"⟩

def errNoQuestions : HErr := ⟨400, "Bad Request", "Test has no questions"⟩

def errQuestionNoVersions (qid : Int) : HErr :=
  ⟨400, "Bad Request", "Question " ++ toString qid ++ " has no versions"⟩

def errForbidden : HErr := ⟨403, "Forbidden", ""⟩

def errForbiddenPerm (perm : String) : HErr :=
  ⟨403, "Forbidden", "required_permission " ++ perm⟩

def errTestHasAttempts : HErr :=
  ⟨400, "Bad Request", "Test has attempts, modification forbidden"⟩

def errNotAllowedDefault : HErr :=
  ⟨403, "Forbidden", "Not allowed by default; need permission"⟩

def errQuestionNotFound : HErr := ⟨404, "Not found", "Question not found"⟩

def errUniqueViolation : HErr :=
  ⟨400, "Bad Request", "Question already in test or position conflict"⟩

def errOrderMismatch : HErr :=
  ⟨400, "Bad Request", "Order list must contain exactly the same question ids as in test"⟩

/-- The unhandled `IntegrityError` raised when a reorder `UPDATE` violates
the non-deferrable `UNIQUE (test_id, position)` constraint
(`uq_test_questions_position`, `models.py`): `test_question_order` has no
`try/except` around its update loop, so FastAPI surfaces it as HTTP 500 and
the uncommitted transaction rolls back. -/
def errPositionConflict : HErr :=
  ⟨500, "Internal Server Error",
   "IntegrityError: duplicate key value violates unique constraint uq_test_questions_position"⟩

def errIndexNegative : HErr :=
  ⟨400, "Bad Request", "index must be >= 0 (use answer_delete to reset to -1)"⟩

def errAttemptFinished : HErr :=
  ⟨400, "Bad Request", "Attempt already finished"⟩

def errNeedTwoOptions : HErr := ⟨400, "Bad Request", "Need at least 2 options"⟩

def errCorrectIndexRange : HErr := ⟨400, "Bad Request", "correctIndex out of range"⟩

def errNoAttemptForTest : HErr :=
  ⟨404, "Not found", "User has no attempt for this test"⟩

/-! ### Shared row lookups (the `select ... where` queries) -/

/-- Query `select(Test).where(Test.id == test_id, Test.is_deleted == False)`. -/
def findTest (db : DB) (test_id : Int) : Option Test :=
  db.tests.find? (fun t => t.id == test_id && !t.is_deleted)

/-- Query `select(Course).where(Course.id == course_id, Course.is_deleted == False)`. -/
def findCourse (db : DB) (course_id : Int) : Option Course :=
  db.courses.find? (fun c => c.id == course_id && !c.is_deleted)

/-- Query `select(Question).where(Question.id == id, Question.is_deleted == False)`. -/
def findQuestion (db : DB) (id : Int) : Option Question :=
  db.questions.find? (fun q => q.id == id && !q.is_deleted)

/-- Query `select(Attempt).where(Attempt.test_id == test_id, Attempt.user_id == user_id)`
(the pair is unique). -/
def findAttemptByTestUser (db : DB) (test_id user_id : Int) : Option Attempt :=
  db.attempts.find? (fun a => a.test_id == test_id && a.user_id == user_id)

/-- Query `select(Attempt).where(Attempt.id == attempt_id)`. -/
def findAttempt (db : DB) (attempt_id : Int) : Option Attempt :=
  db.attempts.find? (fun a => a.id == attempt_id)

/-- Query `select(Answer).where(Answer.id == answer_id)`. -/
def findAnswer (db : DB) (answer_id : Int) : Option Answer :=
  db.answers.find? (fun a => a.id == answer_id)

/-- Query `select(QuestionVersion).where(question_id == qid, version == ver)`
(the pair is the primary key). -/
def lookupQV (db : DB) (qid ver : Int) : Option QuestionVersion :=
  db.questionVersions.find? (fun v => v.question_id == qid && v.version == ver)

/-- Query `select(func.max(QuestionVersion.version)).where(question_id == qid)` —
`none` when the question has no version rows. -/
def maxVersion (db : DB) (qid : Int) : Option Int :=
  (db.questionVersions.filter (fun v => v.question_id == qid)).foldl
    (fun acc v =>
      match acc with
      | none => some v.version
      | some m => some (max m v.version)) none

/-! ### `app/api/answers.py` -/

/-- Endpoint `POST /answer_update` (`answer_update` in `app/api/answers.py`).
The only index validation in the source is `index < 0`; there is no
comparison against the pinned version's option count. -/
def answer_update (db : DB) (current : CurrentUser) (answer_id index : Int) :
    Except HErr DB :=
  if index < 0 then .error errIndexNegative
  else
    match findAnswer db answer_id with
    | none => .error errNotFound
    | some ans =>
      match findAttempt db ans.attempt_id with
      | none => .error errNotFound
      | some attempt =>
        if attempt.user_id != current.user_id then .error errForbidden
        else if attempt.status != AStatus.in_progress then .error errAttemptFinished
        else
          .ok { db with
                answers := db.answers.map (fun a =>
                  if a.id == answer_id then { a with answer_index := index } else a) }

/-- Endpoint `POST /answer_delete` (`answer_delete` in `app/api/answers.py`):
sets `answer_index` to `-1` while the attempt is `in_progress`. -/
def answer_delete (db : DB) (current : CurrentUser) (answer_id : Int) :
    Except HErr DB :=
  match findAnswer db answer_id with
  | none => .error errNotFound
  | some ans =>
    match findAttempt db ans.attempt_id with
    | none => .error errNotFound
    | some attempt =>
      if attempt.user_id != current.user_id then .error errForbidden
      else if attempt.status != AStatus.in_progress then .error errAttemptFinished
      else
        .ok { db with
              answers := db.answers.map (fun a =>
                if a.id == answer_id then { a with answer_index := -1 } else a) }

/-! ### `app/api/attempts.py` -/

/-- Query `select(TestQuestion.question_id, TestQuestion.position).where(test_id ==
test_id).order_by(TestQuestion.position)`. -/
def orderedTestQuestions (db : DB) (test_id : Int) : List TestQuestion :=
  List.insertionSort (fun a b => a.position ≤ b.position)
    (db.testQuestions.filter (fun tq => tq.test_id == test_id))

/-- The per-question loop of `attempt_create`: for each `(question_id,
position)` row pin `max(QuestionVersion.version)` (error when the question has
no versions) and stage one `AttemptQuestion` plus one `Answer` with
`answer_index = -1`.  `ansId` tracks the autoincrement id handed to each
staged `Answer` row. -/
def buildSnapshot (db : DB) (attemptId ansId : Int) :
    List TestQuestion → Except HErr (List AttemptQuestion × List Answer)
  | [] => .ok ([], [])
  | tq :: rest =>
    match maxVersion db tq.question_id with
    | none => .error (errQuestionNoVersions tq.question_id)
    | some last_ver =>
      match buildSnapshot db attemptId (ansId + 1) rest with
      | .error e => .error e
      | .ok (aqs, anss) =>
        .ok (⟨attemptId, tq.question_id, last_ver, tq.position⟩ :: aqs,
             ⟨ansId, attemptId, tq.question_id, last_ver, -1⟩ :: anss)

/-- Endpoint `POST /attempt_create` (`attempt_create` in `app/api/attempts.py`).
Checks run in source order: test exists and not deleted (404), test active
(400), existing `(test, user)` attempt returned idempotently, then the
snapshot is built and committed in one transaction. -/
def attempt_create (db : DB) (current : CurrentUser) (test_id : Int) :
    Except HErr (DB × Int) :=
  match findTest db test_id with
  | none => .error errNotFound
  | some test =>
    if !test.is_active then .error errTestNotActive
    else
      let user_id := current.user_id
      match findAttemptByTestUser db test_id user_id with
      | some existing => .ok (db, existing.id)
      | none =>
        let attemptId := db.nextAttemptId
        let tq_rows := orderedTestQuestions db test_id
        if tq_rows.isEmpty then .error errNoQuestions
        else
          match buildSnapshot db attemptId db.nextAnswerId tq_rows with
          | .error e => .error e
          | .ok (aqs, anss) =>
            .ok ({ db with
                   attempts := db.attempts ++
                     [⟨attemptId, test_id, user_id, AStatus.in_progress⟩],
                   attemptQuestions := db.attemptQuestions ++ aqs,
                   answers := db.answers ++ anss,
                   nextAttemptId := db.nextAttemptId + 1,
                   nextAnswerId := db.nextAnswerId + tq_rows.length },
                  attemptId)

/-! ### `app/api/teacher_tests.py` -/

/-- Helper `get_test_course`: `select(Test, Course).join(Course, Course.id ==
Test.course_id).where(Test.id == test_id, Test.is_deleted == False,
Course.is_deleted == False)`; `404` when the join is empty. -/
def get_test_course (db : DB) (test_id : Int) : Option (Test × Course) :=
  match findTest db test_id with
  | none => none
  | some t =>
    match findCourse db t.course_id with
    | none => none
    | some c => some (t, c)

/-- Helper `ensure_teacher_or_perm(course, current, perm)`: the course's teacher
passes by default, anyone else needs `perm` in their permission set. -/
def ensure_teacher_or_perm (course : Course) (current : CurrentUser)
    (perm : String) : Except HErr Unit :=
  if course.teacher_id == current.user_id then .ok ()
  else if !has_perm current perm then .error (errForbiddenPerm perm)
  else .ok ()

/-- Python 3 `round` (banker's rounding, half to even) of the exact rational
`num / den`, for `den > 0`.  `test_user_grade` computes
`int(round(100 * correct / total))`; we idealise the intermediate IEEE-754
division to the exact rational, as the spec states the same formula. -/
def pyRoundDiv (num den : Nat) : Nat :=
  let q := num / den
  let r := num % den
  if 2 * r < den then q
  else if den < 2 * r then q + 1
  else if q % 2 == 0 then q else q + 1

/-- One row of the `correct`-count join: the answer was given
(`answer_index != -1`) and matches `correct_index` of the pinned
`(question_id, question_version)` row. -/
def answerIsCorrect (db : DB) (a : Answer) : Bool :=
  a.answer_index != -1 &&
    (match lookupQV db a.question_id a.question_version with
     | some qv => a.answer_index == qv.correct_index
     | none => false)

/-- Result payload of `GET /test_user_grade`. -/
structure GradeOut where
  test_id : Int
  user_id : Int
  attempt_id : Int
  correct : Nat
  total : Nat
  grade_percent : Nat
deriving DecidableEq, Repr

/-- Endpoint `GET /test_user_grade` (`test_user_grade` in `app/api/teacher_tests.py`). -/
def test_user_grade (db : DB) (current : CurrentUser) (test_id user_id : Int) :
    Except HErr GradeOut :=
  match get_test_course db test_id with
  | none => .error errNotFound
  | some (test, course) =>
    match ensure_teacher_or_perm course current "test:answer:read" with
    | .error e => .error e
    | .ok _ =>
      match findAttemptByTestUser db test.id user_id with
      | none => .error errNoAttemptForTest
      | some attempt =>
        let total := (db.answers.filter (fun a => a.attempt_id == attempt.id)).length
        if total == 0 then
          .ok ⟨test.id, user_id, attempt.id, 0, 0, 0⟩
        else
          let correct := (db.answers.filter (fun a =>
            a.attempt_id == attempt.id && answerIsCorrect db a)).length
          .ok ⟨test.id, user_id, attempt.id, correct, total,
               pyRoundDiv (100 * correct) total⟩

/-! ### `app/api/questions.py` -/

/-- Python `str.split(",")` at character level: cut the character list at
every comma, keeping empty segments. -/
def splitCommas : List Char → List (List Char)
  | [] => [[]]
  | c :: rest =>
    if c = ',' then [] :: splitCommas rest
    else
      match splitCommas rest with
      | [] => [[c]]
      | h :: t => (c :: h) :: t

/-- The whitespace characters removed by Python `str.strip()`. -/
def isPySpace (c : Char) : Bool :=
  c == ' ' || c == '\t' || c == '\n' || c == '\r' ||
  c == '\x0b' || c == '\x0c'

/-- Python `str.strip()`: drop whitespace from both ends. -/
def stripChars (s : List Char) : List Char :=
  ((s.dropWhile isPySpace).reverse.dropWhile isPySpace).reverse

/-- Comprehension `[o.strip() for o in optionsCsv.split(",") if o.strip()]` (an option
survives when it is nonempty after stripping, and is kept stripped). -/
def parse_csv_options (csv : String) : List String :=
  (((splitCommas csv.data).map stripChars).filter
    (fun cs => !cs.isEmpty)).map (fun cs => ⟨cs⟩)

/-- Endpoint `POST /question_update` (`question_update` in `app/api/questions.py`):
appends a fresh `QuestionVersion` with `version = max(version) + 1`
(`max` read as `0` when the question has no versions yet). -/
def question_update (db : DB) (current : CurrentUser) (id : Int)
    (title text optionsCsv : String) (correctIndex : Int) :
    Except HErr (DB × Int) :=
  match findQuestion db id with
  | none => .error errNotFound
  | some q =>
    if q.author_id != current.user_id && !has_perm current "quest:update" then
      .error (errForbiddenPerm "quest:update")
    else
      let opts := parse_csv_options optionsCsv
      if opts.length < 2 then .error errNeedTwoOptions
      else if correctIndex < 0 ∨ (opts.length : Int) ≤ correctIndex then
        .error errCorrectIndexRange
      else
        let current_max := (maxVersion db id).getD 0
        let next_version := current_max + 1
        .ok ({ db with
               questionVersions := db.questionVersions ++
                 [⟨id, next_version, title, text, opts, correctIndex⟩] },
             next_version)

/-! ### `app/api/test_questions.py` -/

/-- Helper `ensure_can_edit_test(session, current, test)`, in source order: course
lookup (404 when deleted/missing), then the attempt-count gate, then the
owner check; a non-owner is rejected unconditionally — the function never
consults the permission set. -/
def ensure_can_edit_test (db : DB) (current : CurrentUser) (test : Test) :
    Except HErr Unit :=
  match findCourse db test.course_id with
  | none => .error errNotFound
  | some course =>
    let attempts_cnt := (db.attempts.filter (fun a => a.test_id == test.id)).length
    if attempts_cnt > 0 then .error errTestHasAttempts
    else if course.teacher_id == current.user_id then .ok ()
    else .error errNotAllowedDefault

/-- Query `select(func.max(TestQuestion.position)).where(test_id == test_id)`. -/
def maxPosition (db : DB) (test_id : Int) : Option Int :=
  (db.testQuestions.filter (fun tq => tq.test_id == test_id)).foldl
    (fun acc tq =>
      match acc with
      | none => some tq.position
      | some m => some (max m tq.position)) none

/-- Endpoint `POST /test_question_add` (`test_question_add` in
`app/api/test_questions.py`).  The final membership test models the
`(test_id, question_id)` primary-key violation that the source catches at
`commit` and converts to a 400 (a position conflict cannot occur: the new
position strictly exceeds every existing one). -/
def test_question_add (db : DB) (current : CurrentUser)
    (test_id question_id : Int) : Except HErr (DB × Int) :=
  match findTest db test_id with
  | none => .error errNotFound
  | some test =>
    match ensure_can_edit_test db current test with
    | .error e => .error e
    | .ok _ =>
      match findCourse db test.course_id with
      | none => .error errNotFound
      | some course =>
        if course.teacher_id != current.user_id &&
            !has_perm current "test:quest:add" then
          .error (errForbiddenPerm "test:quest:add")
        else
          match findQuestion db question_id with
          | none => .error errQuestionNotFound
          | some _ =>
            let next_pos :=
              match maxPosition db test_id with
              | some m => m + 1
              | none => 0
            if db.testQuestions.any (fun tq =>
                tq.test_id == test_id && tq.question_id == question_id) then
              .error errUniqueViolation
            else
              .ok ({ db with
                     testQuestions := db.testQuestions ++
                       [⟨test_id, question_id, next_pos⟩] },
                   next_pos)

/-- Endpoint `POST /test_question_del` (`test_question_del` in
`app/api/test_questions.py`). -/
def test_question_del (db : DB) (current : CurrentUser)
    (test_id question_id : Int) : Except HErr DB :=
  match findTest db test_id with
  | none => .error errNotFound
  | some test =>
    match ensure_can_edit_test db current test with
    | .error e => .error e
    | .ok _ =>
      match findCourse db test.course_id with
      | none => .error errNotFound
      | some course =>
        if course.teacher_id != current.user_id &&
            !has_perm current "test:quest:del" then
          .error (errForbiddenPerm "test:quest:del")
        else
          match db.testQuestions.find? (fun tq =>
              tq.test_id == test_id && tq.question_id == question_id) with
          | none => .error errNotFound
          | some _ =>
            .ok { db with
                  testQuestions := db.testQuestions.filter (fun tq =>
                    !(tq.test_id == test_id && tq.question_id == question_id)) }

/-- Integer-valued sort key comparison used to model Python's
`sorted(list_of_ints)`. -/
def sortInts (l : List Int) : List Int :=
  List.insertionSort (fun a b => a ≤ b) l

/-- The position-rewrite loop of `test_question_order`:
`for pos, qid in enumerate(new_order): update ... set position = pos`,
one `UPDATE` statement per question with no exception handling.  The
`UNIQUE (test_id, position)` constraint is non-deferrable, so the store
checks it at each statement: when the statement actually rewrites a row
(some row of this test carries `qid` — always the case after the
permutation gate) and a different row of the same test currently holds the
target position, the statement raises an `IntegrityError` that nothing
catches; the transaction is rolled back and no position change survives. -/
def reorderUpdates (test_id : Int) (pos : Int) :
    List Int → List TestQuestion → Except HErr (List TestQuestion)
  | [], tqs => .ok tqs
  | qid :: rest, tqs =>
    if tqs.any (fun tq => tq.test_id == test_id && tq.question_id == qid) &&
        tqs.any (fun tq => tq.test_id == test_id &&
          !(tq.question_id == qid) && tq.position == pos) then
      .error errPositionConflict
    else
      reorderUpdates test_id (pos + 1) rest
        (tqs.map (fun tq =>
          if tq.test_id == test_id && tq.question_id == qid then
            { tq with position := pos }
          else tq))

/-- Endpoint `POST /test_question_order` (`test_question_order` in
`app/api/test_questions.py`), taking the already-parsed id list (the output
of `parse_csv_ids(questionIdsCsv)`). -/
def test_question_order (db : DB) (current : CurrentUser) (test_id : Int)
    (new_order : List Int) : Except HErr DB :=
  match findTest db test_id with
  | none => .error errNotFound
  | some test =>
    match ensure_can_edit_test db current test with
    | .error e => .error e
    | .ok _ =>
      match findCourse db test.course_id with
      | none => .error errNotFound
      | some course =>
        if course.teacher_id != current.user_id &&
            !has_perm current "test:quest:update" then
          .error (errForbiddenPerm "test:quest:update")
        else
          let current_ids := (db.testQuestions.filter (fun tq =>
            tq.test_id == test_id)).map (fun tq => tq.question_id)
          if sortInts current_ids ≠ sortInts new_order then
            .error errOrderMismatch
          else
            match reorderUpdates test_id 0 new_order db.testQuestions with
            | .error e => .error e
            | .ok tqs2 => .ok { db with testQuestions := tqs2 }

/-- The spec's gapless-membership invariant on a position-sorted row list:
starting at `pos`, the rows belong to test `tid` and occupy positions
`pos, pos + 1, ...` with no gap. -/
def posSeq (tid : Int) : Int → List TestQuestion → Bool
  | _, [] => true
  | pos, r :: rest =>
    (r.position == pos && r.test_id == tid) && posSeq tid (pos + 1) rest

/-- The test's current question-id list, as read by `test_question_order`. -/
def currentIds (db : DB) (test_id : Int) : List Int :=
  (db.testQuestions.filter (fun tq => tq.test_id == test_id)).map
    (fun tq => tq.question_id)

/-! ### Spec-side restatement of the grading algorithm (section 4.6)

These three functions transcribe the spec's words, to be compared with
`test_user_grade` (which was translated from the source): `total` = count of
answers belonging to the attempt; `correct` = count where
`answer_index != -1` and `answer_index` equals the `correct_index` of the
pinned `(question_id, version)`; `grade_percent = round(100 * correct /
total)`, defined as 0 when `total = 0`. -/

/-- Spec 4.6: count of answers belonging to the attempt. -/
def spec_total (db : DB) (attempt_id : Int) : Nat :=
  db.answers.countP (fun a => a.attempt_id == attempt_id)

/-- Spec 4.6: some stored version row carries the pinned
`(question_id, version)` key of this answer and its `correct_index` equals
the submitted `answer_index`. -/
def answerMatchesPinned (db : DB) (a : Answer) : Bool :=
  db.questionVersions.any (fun qv =>
    qv.question_id == a.question_id && qv.version == a.question_version &&
    qv.correct_index == a.answer_index)

/-- Spec 4.6: count where `answer_index != -1` and the answer matches the
pinned version's `correct_index`. -/
def spec_correct (db : DB) (attempt_id : Int) : Nat :=
  db.answers.countP (fun a =>
    a.attempt_id == attempt_id && a.answer_index != -1 &&
    answerMatchesPinned db a)

/-- Spec 4.6: `round(100 * correct / total)`, `0` when `total = 0`. -/
def spec_grade (db : DB) (attempt_id : Int) : Nat :=
  if spec_total db attempt_id = 0 then 0
  else pyRoundDiv (100 * spec_correct db attempt_id) (spec_total db attempt_id)

/-- Primary-key uniqueness of `question_versions`: no two rows share the
`(question_id, version)` pair. -/
def qvKeysNodup (db : DB) : Prop :=
  (db.questionVersions.map (fun v => (v.question_id, v.version))).Nodup

/-! ### Snapshot shape produced by a successful `attempt_create` -/

/-- One `AttemptQuestion` per test question, pinning the question's current
maximum version at the test's position. -/
def pinnedAQs (db : DB) (aid : Int) (rows : List TestQuestion) :
    List AttemptQuestion :=
  rows.map (fun tq =>
    ⟨aid, tq.question_id, (maxVersion db tq.question_id).getD 0, tq.position⟩)

/-- One initialized `Answer` (`answer_index = -1`) per test question, ids
assigned sequentially from `ansId`. -/
def initAnswers (db : DB) (aid : Int) (ansId : Int) :
    List TestQuestion → List Answer
  | [] => []
  | tq :: rest =>
    ⟨ansId, aid, tq.question_id, (maxVersion db tq.question_id).getD 0, -1⟩ ::
      initAnswers db aid (ansId + 1) rest

/-! ### Concrete states used by the witnesses -/

/-- A course taught by user 10 with one active two-question test, an
`in_progress` attempt by user 2 (answers still unanswered except answer 1,
pinned to version 1 whose option list has two entries), and a `finished`
attempt by user 3. -/
def ansDB : DB where
  courses := [⟨1, 10, false⟩]
  questions := [⟨1, 10, false⟩, ⟨2, 10, false⟩]
  questionVersions :=
    [⟨1, 1, "q1", "t1", ["a", "b"], 0⟩, ⟨2, 1, "q2", "t2", ["a", "b"], 1⟩]
  tests := [⟨1, 1, 10, true, false⟩]
  testQuestions := [⟨1, 1, 0⟩, ⟨1, 2, 1⟩]
  attempts := [⟨1, 1, 2, AStatus.in_progress⟩, ⟨2, 1, 3, AStatus.finished⟩]
  attemptQuestions :=
    [⟨1, 1, 1, 0⟩, ⟨1, 2, 1, 1⟩, ⟨2, 1, 1, 0⟩, ⟨2, 2, 1, 1⟩]
  answers :=
    [⟨1, 1, 1, 1, -1⟩, ⟨2, 1, 2, 1, -1⟩, ⟨3, 2, 1, 1, 0⟩, ⟨4, 2, 2, 1, 1⟩]
  nextAttemptId := 3
  nextAnswerId := 5

/-- The student who owns the `in_progress` attempt of `ansDB`. -/
def student2 : CurrentUser := ⟨2, []⟩

/-- The student who owns the `finished` attempt of `ansDB`. -/
def student3 : CurrentUser := ⟨3, []⟩

/-- State `ansDB` with its only test soft-deleted. -/
def ansDBDeleted : DB := { ansDB with tests := [⟨1, 1, 10, true, true⟩] }

/-- State `ansDB` with its only test deactivated. -/
def ansDBInactive : DB := { ansDB with tests := [⟨1, 1, 10, false, false⟩] }

/-- A user with no attempt yet in `ansDB`. -/
def freshUser4 : CurrentUser := ⟨4, []⟩

/-- State `ansDB` before any attempt exists (test composition still editable). -/
def tcDB : DB :=
  { ansDB with
    attempts := [], attemptQuestions := [], answers := [],
    nextAttemptId := 1, nextAnswerId := 1 }

/-- The teacher of course 1. -/
def teacher10 : CurrentUser := ⟨10, []⟩

/-- A caller who is not the teacher of course 1 but holds all three
test-composition override permissions. -/
def outsider : CurrentUser :=
  ⟨5, ["test:quest:add", "test:quest:del", "test:quest:update"]⟩

/-- The spec's grading example: a four-question test whose pinned version 1
rows have `correct_index` `[1, 0, 2, 1]`, and user 2's attempt submitted
answers `[1, -1, 2, 0]`. -/
def gradeDB : DB where
  courses := [⟨1, 10, false⟩]
  questions := [⟨1, 10, false⟩, ⟨2, 10, false⟩, ⟨3, 10, false⟩, ⟨4, 10, false⟩]
  questionVersions :=
    [⟨1, 1, "q1", "t1", ["a", "b", "c"], 1⟩,
     ⟨2, 1, "q2", "t2", ["a", "b", "c"], 0⟩,
     ⟨3, 1, "q3", "t3", ["a", "b", "c"], 2⟩,
     ⟨4, 1, "q4", "t4", ["a", "b", "c"], 1⟩]
  tests := [⟨1, 1, 10, true, false⟩]
  testQuestions := [⟨1, 1, 0⟩, ⟨1, 2, 1⟩, ⟨1, 3, 2⟩, ⟨1, 4, 3⟩]
  attempts := [⟨1, 1, 2, AStatus.in_progress⟩]
  attemptQuestions := [⟨1, 1, 1, 0⟩, ⟨1, 2, 1, 1⟩, ⟨1, 3, 1, 2⟩, ⟨1, 4, 1, 3⟩]
  answers :=
    [⟨1, 1, 1, 1, 1⟩, ⟨2, 1, 2, 1, -1⟩, ⟨3, 1, 3, 1, 2⟩, ⟨4, 1, 4, 1, 0⟩]
  nextAttemptId := 2
  nextAnswerId := 5

/-! ### C5 -/

/-- C5: for an answer of an attempt owned by the caller, a write against a
`finished` attempt fails with the state-conflict error for both
`answer_update` (with a non-negative index, the case the state gate can
reach) and `answer_delete`, persisting nothing; while the attempt is
`in_progress`, `answer_delete` by the owner succeeds and rewrites that
answer's `answer_index` to `-1`. -/
theorem C5_write_window (db : DB) (cur : CurrentUser) (aid idx : Int)
    (ans : Answer) (att : Attempt)
    (hans : findAnswer db aid = some ans)
    (hatt : findAttempt db ans.attempt_id = some att)
    (howner : att.user_id = cur.user_id)
    (hidx : 0 ≤ idx) :
    (att.status = AStatus.finished →
      answer_update db cur aid idx = .error errAttemptFinished ∧
      answer_delete db cur aid = .error errAttemptFinished) ∧
    (att.status = AStatus.in_progress →
      answer_delete db cur aid =
        .ok { db with answers := db.answers.map (fun a =>
              if a.id == aid then { a with answer_index := -1 } else a) }) := by
  have hnlt : ¬ idx < 0 := not_lt.mpr hidx
  constructor
  · intro hfin
    constructor
    · simp [answer_update, hans, hatt, hnlt, howner, hfin]
      decide
    · simp [answer_delete, hans, hatt, howner, hfin]
      decide
  · intro hprog
    simp [answer_delete, hans, hatt, howner, hprog]
    decide

/-- C5 witness: in `ansDB`, user 3's finished attempt rejects both writes on
answer 3, and user 2's in-progress attempt lets `answer_delete` reset
answer 1 to `-1`. -/
theorem C5_write_window_witness :
    (answer_update ansDB student3 3 1 = .error errAttemptFinished ∧
     answer_delete ansDB student3 3 = .error errAttemptFinished) ∧
    answer_delete ansDB student2 1 =
      .ok { ansDB with answers := ansDB.answers.map (fun a =>
            if a.id == (1 : Int) then { a with answer_index := -1 } else a) } := by
  refine ⟨?_, ?_⟩
  · exact (C5_write_window ansDB student3 3 1 ⟨3, 2, 1, 1, 0⟩
      ⟨2, 1, 3, AStatus.finished⟩ (by decide) (by decide) (by decide)
      (by decide)).1 (by decide)
  · exact (C5_write_window ansDB student2 1 0 ⟨1, 1, 1, 1, -1⟩
      ⟨1, 1, 2, AStatus.in_progress⟩ (by decide) (by decide) (by decide)
      (by decide)).2 (by decide)

/-! ### C6 -/

/-- C6 counterexample: in `ansDB` answer 1 is pinned to `(question 1,
version 1)` whose option list has length 2, yet `answer_update` with the
out-of-range index 5 succeeds and persists 5 — no `ValidationError` is
raised for indexes at or above the pinned version's option count. -/
theorem C6_no_upper_bound_counterexample :
    (lookupQV ansDB 1 1).map (fun v => v.opts.length) = some 2 ∧
    (findAnswer ansDB 1).map (fun a => (a.question_id, a.question_version)) =
      some (1, 1) ∧
    answer_update ansDB student2 1 5 =
      .ok { ansDB with answers := ansDB.answers.map (fun a =>
            if a.id == (1 : Int) then { a with answer_index := 5 } else a) } := by
  exact ⟨by decide, by decide, by rfl⟩

/-- C6 amended: `answer_update` validates only the lower bound — a negative
index fails with the ValidationError (before any lookup), while for the
owner of an `in_progress` attempt every index `≥ 0` is accepted and stored,
regardless of the pinned version's option count. -/
theorem C6_lower_bound_only (db : DB) (cur : CurrentUser) (aid idx : Int)
    (ans : Answer) (att : Attempt)
    (hans : findAnswer db aid = some ans)
    (hatt : findAttempt db ans.attempt_id = some att)
    (howner : att.user_id = cur.user_id)
    (hprog : att.status = AStatus.in_progress) :
    (idx < 0 → answer_update db cur aid idx = .error errIndexNegative) ∧
    (0 ≤ idx → answer_update db cur aid idx =
      .ok { db with answers := db.answers.map (fun a =>
            if a.id == aid then { a with answer_index := idx } else a) }) := by
  constructor
  · intro hneg
    simp [answer_update, hneg]
  · intro hge
    simp [answer_update, hans, hatt, not_lt.mpr hge, howner, hprog]
    decide

/-- C6 amended witness: index 7 is far beyond the two options of the pinned
version, yet the update succeeds; index -2 is rejected. -/
theorem C6_lower_bound_only_witness :
    (answer_update ansDB student2 1 (-2) = .error errIndexNegative) ∧
    answer_update ansDB student2 1 7 =
      .ok { ansDB with answers := ansDB.answers.map (fun a =>
            if a.id == (1 : Int) then { a with answer_index := 7 } else a) } := by
  refine ⟨?_, ?_⟩
  · exact (C6_lower_bound_only ansDB student2 1 (-2) ⟨1, 1, 1, 1, -1⟩
      ⟨1, 1, 2, AStatus.in_progress⟩ (by decide) (by decide) (by decide)
      (by decide)).1 (by decide)
  · exact (C6_lower_bound_only ansDB student2 1 7 ⟨1, 1, 1, 1, -1⟩
      ⟨1, 1, 2, AStatus.in_progress⟩ (by decide) (by decide) (by decide)
      (by decide)).2 (by decide)

/-! ### C10 -/

/-- C10: even when the caller already has an attempt on the test,
`attempt_create` checks test existence and `is_active` first: a missing or
soft-deleted test yields 404 and an inactive test yields the
"Test is not active" error, instead of returning the existing attempt's id;
only when the test is alive and active is the existing id returned. -/
theorem C10_existing_attempt_after_checks (db : DB) (cur : CurrentUser)
    (tid : Int) (a : Attempt)
    (hex : findAttemptByTestUser db tid cur.user_id = some a) :
    (findTest db tid = none →
      attempt_create db cur tid = .error errNotFound) ∧
    (∀ t, findTest db tid = some t → t.is_active = false →
      attempt_create db cur tid = .error errTestNotActive) ∧
    (∀ t, findTest db tid = some t → t.is_active = true →
      attempt_create db cur tid = .ok (db, a.id)) := by
  refine ⟨?_, ?_, ?_⟩
  · intro hft
    simp [attempt_create, hft]
  · intro t hft hinact
    simp [attempt_create, hft, hinact]
  · intro t hft hact
    simp [attempt_create, hft, hact, hex]

/-- C10 witness: user 2 already holds attempt 1 on test 1; with the test
soft-deleted the call 404s, deactivated it fails "Test is not active", and
in the live state it returns attempt id 1. -/
theorem C10_existing_attempt_after_checks_witness :
    attempt_create ansDBDeleted student2 1 = .error errNotFound ∧
    attempt_create ansDBInactive student2 1 = .error errTestNotActive ∧
    attempt_create ansDB student2 1 = .ok (ansDB, 1) := by
  refine ⟨?_, ?_, ?_⟩
  · exact (C10_existing_attempt_after_checks ansDBDeleted student2 1
      ⟨1, 1, 2, AStatus.in_progress⟩ (by decide)).1 (by decide)
  · exact (C10_existing_attempt_after_checks ansDBInactive student2 1
      ⟨1, 1, 2, AStatus.in_progress⟩ (by decide)).2.1
      ⟨1, 1, 10, false, false⟩ (by decide) (by decide)
  · exact (C10_existing_attempt_after_checks ansDB student2 1
      ⟨1, 1, 2, AStatus.in_progress⟩ (by decide)).2.2
      ⟨1, 1, 10, true, false⟩ (by decide) (by decide)

/-! ### C4 -/

/-- C4: `attempt_create` is idempotent per `(test, user)`: once a call
succeeds with attempt id `aid`, an immediate second call by the same user
succeeds, changes nothing, and returns the same `aid` (whether the first
call found an attempt or created one). -/
theorem C4_attempt_create_idempotent (db db1 : DB) (cur : CurrentUser)
    (tid aid : Int)
    (h : attempt_create db cur tid = .ok (db1, aid)) :
    attempt_create db1 cur tid = .ok (db1, aid) := by
  unfold attempt_create at h
  cases hft : findTest db tid with
  | none => rw [hft] at h; simp at h
  | some test =>
    rw [hft] at h
    cases hact : test.is_active with
    | false => simp [hact] at h
    | true =>
      simp only [hact, Bool.not_true, Bool.false_eq_true, if_false] at h
      cases hfa : findAttemptByTestUser db tid cur.user_id with
      | some existing =>
        rw [hfa] at h
        simp only [Except.ok.injEq, Prod.mk.injEq] at h
        obtain ⟨h1, h2⟩ := h
        subst h1; subst h2
        simp [attempt_create, hft, hact, hfa]
      | none =>
        rw [hfa] at h
        simp only at h
        cases hemp : (orderedTestQuestions db tid).isEmpty with
        | true => rw [hemp] at h; simp at h
        | false =>
          rw [hemp] at h
          simp only [Bool.false_eq_true, if_false] at h
          cases hbs : buildSnapshot db db.nextAttemptId db.nextAnswerId
              (orderedTestQuestions db tid) with
          | error e => rw [hbs] at h; simp at h
          | ok pair =>
            rw [hbs] at h
            obtain ⟨aqs, anss⟩ := pair
            simp only [Except.ok.injEq, Prod.mk.injEq] at h
            obtain ⟨h1, h2⟩ := h
            subst h1; subst h2
            unfold findTest at hft
            unfold findAttemptByTestUser at hfa
            simp [attempt_create, findTest, findAttemptByTestUser,
              List.find?_append, hft, hfa, hact]

/-- C4 witness: user 4 creates an attempt on test 1 of `ansDB`; calling
`attempt_create` again right away returns the same id 3 and the same
state. -/
theorem C4_attempt_create_idempotent_witness :
    attempt_create
      { ansDB with
        attempts := ansDB.attempts ++ [⟨3, 1, 4, AStatus.in_progress⟩],
        attemptQuestions := ansDB.attemptQuestions ++
          [⟨3, 1, 1, 0⟩, ⟨3, 2, 1, 1⟩],
        answers := ansDB.answers ++
          [⟨5, 3, 1, 1, -1⟩, ⟨6, 3, 2, 1, -1⟩],
        nextAttemptId := 4, nextAnswerId := 7 }
      freshUser4 1 =
    .ok ({ ansDB with
           attempts := ansDB.attempts ++ [⟨3, 1, 4, AStatus.in_progress⟩],
           attemptQuestions := ansDB.attemptQuestions ++
             [⟨3, 1, 1, 0⟩, ⟨3, 2, 1, 1⟩],
           answers := ansDB.answers ++
             [⟨5, 3, 1, 1, -1⟩, ⟨6, 3, 2, 1, -1⟩],
           nextAttemptId := 4, nextAnswerId := 7 }, 3) :=
  C4_attempt_create_idempotent ansDB _ freshUser4 1 3 (by rfl)

/-! ### C3 -/

/-- C3: as soon as a test has at least one attempt, `test_question_add`,
`test_question_del` and `test_question_order` all fail with the
state-conflict error raised by `ensure_can_edit_test`'s attempt-count gate,
for every caller and every argument, before any write: the gate sits before
the ownership check and before each endpoint's permission check. -/
theorem C3_attempts_freeze_composition (db : DB) (tid : Int)
    (test : Test) (course : Course)
    (hft : findTest db tid = some test)
    (hfc : findCourse db test.course_id = some course)
    (hcnt : 0 < (db.attempts.filter (fun a => a.test_id == test.id)).length) :
    ∀ (cur : CurrentUser) (qid : Int) (new_order : List Int),
      test_question_add db cur tid qid = .error errTestHasAttempts ∧
      test_question_del db cur tid qid = .error errTestHasAttempts ∧
      test_question_order db cur tid new_order = .error errTestHasAttempts := by
  intro cur qid new_order
  refine ⟨?_, ?_, ?_⟩
  · simp [test_question_add, ensure_can_edit_test, hft, hfc, hcnt]
  · simp [test_question_del, ensure_can_edit_test, hft, hfc, hcnt]
  · simp [test_question_order, ensure_can_edit_test, hft, hfc, hcnt]

/-- C3 witness: `ansDB` has two attempts on test 1, so even its own teacher
cannot add, remove, or reorder questions. -/
theorem C3_attempts_freeze_composition_witness :
    test_question_add ansDB teacher10 1 3 = .error errTestHasAttempts ∧
    test_question_del ansDB teacher10 1 1 = .error errTestHasAttempts ∧
    test_question_order ansDB teacher10 1 [2, 1] = .error errTestHasAttempts :=
  C3_attempts_freeze_composition ansDB 1 ⟨1, 1, 10, true, false⟩ ⟨1, 10, false⟩
    (by decide) (by decide) (by decide) teacher10 3 [2, 1]

/-! ### C7 -/

/-- C7 (code bug): `ensure_can_edit_test` rejects every non-owner
unconditionally, so the `test:quest:add` / `test:quest:del` /
`test:quest:update` override permissions never grant access to the three
composition endpoints: a non-owner holding all three permissions is still
denied on a live, attempt-free test — the `has_perm` branches inside the
endpoints are unreachable, contradicting the in-code comments and the
policy's override rule. -/
theorem C7_override_permissions_dead :
    has_perm outsider "test:quest:add" = true ∧
    has_perm outsider "test:quest:del" = true ∧
    has_perm outsider "test:quest:update" = true ∧
    (tcDB.attempts.filter (fun a => a.test_id == 1)).length = 0 ∧
    test_question_add tcDB outsider 1 1 = .error errNotAllowedDefault ∧
    test_question_del tcDB outsider 1 1 = .error errNotAllowedDefault ∧
    test_question_order tcDB outsider 1 [2, 1] = .error errNotAllowedDefault :=
  ⟨rfl, rfl, rfl, rfl, rfl, rfl, rfl⟩

/-! ### C9 -/

/-- Two integer lists have equal `sorted(...)` images exactly when one is a
permutation (as multisets) of the other — the reorder endpoint's
`sorted(current_ids) != sorted(new_order)` test decides permutation. -/
theorem sortInts_eq_iff (l1 l2 : List Int) :
    sortInts l1 = sortInts l2 ↔ l1.Perm l2 := by
  constructor
  · intro h
    have p1 : (sortInts l1).Perm l1 := List.perm_insertionSort _ l1
    have p2 : (sortInts l2).Perm l2 := List.perm_insertionSort _ l2
    exact p1.symm.trans (h ▸ p2)
  · intro h
    have hs1 : List.Sorted (fun a b : Int => a ≤ b) (sortInts l1) :=
      List.sorted_insertionSort _ l1
    have hs2 : List.Sorted (fun a b : Int => a ≤ b) (sortInts l2) :=
      List.sorted_insertionSort _ l2
    have hperm : (sortInts l1).Perm (sortInts l2) :=
      (List.perm_insertionSort _ l1).trans
        (h.trans (List.perm_insertionSort _ l2).symm)
    exact List.eq_of_perm_of_sorted hperm hs1 hs2

/-- Rows of a gapless position block belong to the test and sit at or
above the block's base position. -/
theorem posSeq_mem (tid : Int) :
    ∀ (rem : List TestQuestion) (pos : Int), posSeq tid pos rem = true →
    ∀ r ∈ rem, r.test_id = tid ∧ pos ≤ r.position := by
  intro rem
  induction rem with
  | nil => intro pos _ r hr; cases hr
  | cons r0 rest ih =>
    intro pos hseq r hr
    have hparts : ((r0.position == pos && r0.test_id == tid) = true) ∧
        posSeq tid (pos + 1) rest = true := by
      simpa [posSeq, Bool.and_eq_true] using hseq
    have hp0 : r0.position = pos :=
      beq_iff_eq.mp ((Bool.and_eq_true _ _).mp hparts.1).1
    have ht0 : r0.test_id = tid :=
      beq_iff_eq.mp ((Bool.and_eq_true _ _).mp hparts.1).2
    rcases List.mem_cons.mp hr with rfl | hmem
    · exact ⟨ht0, le_of_eq hp0.symm⟩
    · obtain ⟨h1, h2⟩ := ih (pos + 1) hparts.2 r hmem
      exact ⟨h1, by omega⟩

/-- Membership in the position-sorted view is membership in the table with
the matching test id. -/
theorem mem_ordered_iff (db : DB) (tid : Int) (r : TestQuestion) :
    r ∈ orderedTestQuestions db tid ↔
      (r ∈ db.testQuestions ∧ r.test_id = tid) := by
  unfold orderedTestQuestions
  rw [(List.perm_insertionSort _ _).mem_iff, List.mem_filter]
  simp [beq_iff_eq]

/-- Fed the remaining rows' ids in their current position order, every
update statement finds its row already at the target position: no
uniqueness violation fires and the table is left exactly as it was. -/
theorem reorderUpdates_identity (tid : Int) :
    ∀ (rem : List TestQuestion) (pos : Int) (tqs : List TestQuestion),
    posSeq tid pos rem = true →
    (∀ r ∈ rem, r ∈ tqs) →
    (∀ r ∈ tqs, r.test_id = tid → pos ≤ r.position → r ∈ rem) →
    (rem.map (fun r => r.question_id)).Nodup →
    (∀ r ∈ tqs, r.test_id = tid → r.position < pos →
      ∀ r2 ∈ rem, r.question_id ≠ r2.question_id) →
    reorderUpdates tid pos (rem.map (fun r => r.question_id)) tqs = .ok tqs := by
  intro rem
  induction rem with
  | nil => intro pos tqs _ _ _ _ _; simp [reorderUpdates]
  | cons r0 rest ih =>
    intro pos tqs hseq hsub hcover hnd hdisj
    have hparts : ((r0.position == pos && r0.test_id == tid) = true) ∧
        posSeq tid (pos + 1) rest = true := by
      simpa [posSeq, Bool.and_eq_true] using hseq
    have hp0 : r0.position = pos :=
      beq_iff_eq.mp ((Bool.and_eq_true _ _).mp hparts.1).1
    have ht0 : r0.test_id = tid :=
      beq_iff_eq.mp ((Bool.and_eq_true _ _).mp hparts.1).2
    simp only [List.map_cons] at hnd
    have hq0 : r0.question_id ∉ rest.map (fun r => r.question_id) :=
      (List.nodup_cons.mp hnd).1
    have hchk : tqs.any (fun tq => tq.test_id == tid &&
        !(tq.question_id == r0.question_id) && tq.position == pos) = false := by
      rw [List.any_eq_false]
      intro tq htq hc
      have hc1 : tq.test_id = tid :=
        beq_iff_eq.mp ((Bool.and_eq_true _ _).mp
          ((Bool.and_eq_true _ _).mp hc).1).1
      have hc2 : ¬ tq.question_id = r0.question_id := by
        have := ((Bool.and_eq_true _ _).mp ((Bool.and_eq_true _ _).mp hc).1).2
        simpa using this
      have hc3 : tq.position = pos :=
        beq_iff_eq.mp ((Bool.and_eq_true _ _).mp hc).2
      have hmem : tq ∈ r0 :: rest := hcover tq htq hc1 (by omega)
      rcases List.mem_cons.mp hmem with rfl | hmem2
      · exact hc2 rfl
      · have := (posSeq_mem tid rest (pos + 1) hparts.2 tq hmem2).2
        omega
    have hmapid : tqs.map (fun tq =>
        if tq.test_id == tid && tq.question_id == r0.question_id then
          { tq with position := pos }
        else tq) = tqs := by
      have hpt : ∀ tq ∈ tqs,
          (if tq.test_id == tid && tq.question_id == r0.question_id then
            { tq with position := pos }
          else tq) = id tq := by
        intro tq htq
        by_cases hcond : (tq.test_id == tid &&
            tq.question_id == r0.question_id) = true
        · have hctid : tq.test_id = tid :=
            beq_iff_eq.mp ((Bool.and_eq_true _ _).mp hcond).1
          have hcqid : tq.question_id = r0.question_id :=
            beq_iff_eq.mp ((Bool.and_eq_true _ _).mp hcond).2
          have hpos : tq.position = pos := by
            by_cases hge : pos ≤ tq.position
            · have hmem : tq ∈ r0 :: rest := hcover tq htq hctid hge
              rcases List.mem_cons.mp hmem with rfl | hmem2
              · exact hp0
              · exact absurd (List.mem_map.mpr ⟨tq, hmem2, hcqid⟩) (hcqid ▸ hq0)
            · push_neg at hge
              exact absurd hcqid
                (hdisj tq htq hctid hge r0 (List.mem_cons_self r0 rest))
          rw [if_pos hcond]
          cases tq
          simp only at hpos
          simp [hpos]
        · rw [if_neg hcond]
          rfl
      rw [List.map_congr_left hpt, List.map_id]
    rw [List.map_cons]
    simp only [reorderUpdates]
    rw [hchk]
    simp only [Bool.and_false, Bool.false_eq_true, if_false]
    rw [hmapid]
    refine ih (pos + 1) tqs hparts.2
      (fun r hr => hsub r (List.mem_cons_of_mem _ hr)) ?_
      (List.nodup_cons.mp hnd).2 ?_
    · intro r hr htid hge
      have hmem : r ∈ r0 :: rest := hcover r hr htid (by omega)
      rcases List.mem_cons.mp hmem with rfl | h2
      · omega
      · exact h2
    · intro r hr htid hlt r2 hr2
      by_cases hlt0 : r.position < pos
      · exact hdisj r hr htid hlt0 r2 (List.mem_cons_of_mem _ hr2)
      · have hpe : r.position = pos := by omega
        have hmem : r ∈ r0 :: rest := hcover r hr htid (by omega)
        rcases List.mem_cons.mp hmem with rfl | h2
        · intro heq
          exact hq0 (List.mem_map.mpr ⟨r2, hr2, heq.symm⟩)
        · have := (posSeq_mem tid rest (pos + 1) hparts.2 r h2).2
          omega

/-- Fed any permutation of the remaining ids other than their current
position order, the loop reaches a first diverging statement whose target
position is still held by a different row of the test, and dies with the
unhandled IntegrityError. -/
theorem reorderUpdates_error (tid : Int) :
    ∀ (order : List Int) (rem : List TestQuestion) (pos : Int)
      (tqs : List TestQuestion),
    posSeq tid pos rem = true →
    (∀ r ∈ rem, r ∈ tqs) →
    (∀ r ∈ tqs, r.test_id = tid → pos ≤ r.position → r ∈ rem) →
    (rem.map (fun r => r.question_id)).Nodup →
    (∀ r ∈ tqs, r.test_id = tid → r.position < pos →
      ∀ r2 ∈ rem, r.question_id ≠ r2.question_id) →
    order.Perm (rem.map (fun r => r.question_id)) →
    order ≠ rem.map (fun r => r.question_id) →
    reorderUpdates tid pos order tqs = .error errPositionConflict := by
  intro order
  induction order with
  | nil =>
    intro rem pos tqs _ _ _ _ _ hperm hne
    exact absurd hperm.nil_eq hne
  | cons qid rest ih =>
    intro rem pos tqs hseq hsub hcover hnd hdisj hperm hne
    cases rem with
    | nil => cases hperm.eq_nil
    | cons r0 rrest =>
      have hparts : ((r0.position == pos && r0.test_id == tid) = true) ∧
          posSeq tid (pos + 1) rrest = true := by
        simpa [posSeq, Bool.and_eq_true] using hseq
      have hp0 : r0.position = pos :=
        beq_iff_eq.mp ((Bool.and_eq_true _ _).mp hparts.1).1
      have ht0 : r0.test_id = tid :=
        beq_iff_eq.mp ((Bool.and_eq_true _ _).mp hparts.1).2
      by_cases hqid : qid = r0.question_id
      · simp only [List.map_cons] at hnd hperm hne
        rw [← hqid] at hperm hne hnd
        have hq0 : qid ∉ rrest.map (fun r => r.question_id) :=
          (List.nodup_cons.mp hnd).1
        have hchk : tqs.any (fun tq => tq.test_id == tid &&
            !(tq.question_id == qid) && tq.position == pos) = false := by
          rw [List.any_eq_false]
          intro tq htq hc
          have hc1 : tq.test_id = tid :=
            beq_iff_eq.mp ((Bool.and_eq_true _ _).mp
              ((Bool.and_eq_true _ _).mp hc).1).1
          have hc2 : ¬ tq.question_id = qid := by
            have := ((Bool.and_eq_true _ _).mp
              ((Bool.and_eq_true _ _).mp hc).1).2
            simpa using this
          have hc3 : tq.position = pos :=
            beq_iff_eq.mp ((Bool.and_eq_true _ _).mp hc).2
          have hmem : tq ∈ r0 :: rrest := hcover tq htq hc1 (by omega)
          rcases List.mem_cons.mp hmem with rfl | hmem2
          · exact hc2 hqid.symm
          · have := (posSeq_mem tid rrest (pos + 1) hparts.2 tq hmem2).2
            omega
        have hmapid : tqs.map (fun tq =>
            if tq.test_id == tid && tq.question_id == qid then
              { tq with position := pos }
            else tq) = tqs := by
          have hpt : ∀ tq ∈ tqs,
              (if tq.test_id == tid && tq.question_id == qid then
                { tq with position := pos }
              else tq) = id tq := by
            intro tq htq
            by_cases hcond : (tq.test_id == tid && tq.question_id == qid) = true
            · have hctid : tq.test_id = tid :=
                beq_iff_eq.mp ((Bool.and_eq_true _ _).mp hcond).1
              have hcqid : tq.question_id = qid :=
                beq_iff_eq.mp ((Bool.and_eq_true _ _).mp hcond).2
              have hpos : tq.position = pos := by
                by_cases hge : pos ≤ tq.position
                · have hmem : tq ∈ r0 :: rrest := hcover tq htq hctid hge
                  rcases List.mem_cons.mp hmem with rfl | hmem2
                  · exact hp0
                  · exact absurd (List.mem_map.mpr ⟨tq, hmem2, hcqid⟩) hq0
                · push_neg at hge
                  exact absurd (hcqid.trans hqid)
                    (hdisj tq htq hctid hge r0 (List.mem_cons_self r0 rrest))
              rw [if_pos hcond]
              cases tq
              simp only at hpos
              simp [hpos]
            · rw [if_neg hcond]
              rfl
          rw [List.map_congr_left hpt, List.map_id]
        have hperm2 : rest.Perm (rrest.map (fun r => r.question_id)) :=
          hperm.cons_inv
        have hne2 : rest ≠ rrest.map (fun r => r.question_id) := by
          intro h
          exact hne (by rw [h])
        simp only [reorderUpdates]
        rw [hchk]
        simp only [Bool.and_false, Bool.false_eq_true, if_false]
        rw [hmapid]
        refine ih rrest (pos + 1) tqs hparts.2
          (fun r hr => hsub r (List.mem_cons_of_mem _ hr)) ?_
          (List.nodup_cons.mp hnd).2 ?_ hperm2 hne2
        · intro r hr htid hge
          have hmem : r ∈ r0 :: rrest := hcover r hr htid (by omega)
          rcases List.mem_cons.mp hmem with rfl | h2
          · omega
          · exact h2
        · intro r hr htid hlt r2 hr2
          by_cases hlt0 : r.position < pos
          · exact hdisj r hr htid hlt0 r2 (List.mem_cons_of_mem _ hr2)
          · have hpe : r.position = pos := by omega
            have hmem : r ∈ r0 :: rrest := hcover r hr htid (by omega)
            rcases List.mem_cons.mp hmem with rfl | h2
            · intro heq
              exact hq0 (List.mem_map.mpr ⟨r2, hr2, heq.symm.trans hqid.symm⟩)
            · have := (posSeq_mem tid rrest (pos + 1) hparts.2 r h2).2
              omega
      · have hfirst : tqs.any (fun tq => tq.test_id == tid &&
            tq.question_id == qid) = true := by
          have hqin : qid ∈ (r0 :: rrest).map (fun r => r.question_id) :=
            hperm.subset (List.mem_cons_self qid rest)
          obtain ⟨r2, hr2, hr2id⟩ := List.mem_map.mp hqin
          have hr2tid : r2.test_id = tid :=
            (posSeq_mem tid _ pos hseq r2 hr2).1
          rw [List.any_eq_true]
          exact ⟨r2, hsub r2 hr2, by simp [beq_iff_eq, hr2tid, hr2id]⟩
        have hsecond : tqs.any (fun tq => tq.test_id == tid &&
            !(tq.question_id == qid) && tq.position == pos) = true := by
          rw [List.any_eq_true]
          refine ⟨r0, hsub r0 (List.mem_cons_self r0 rrest), ?_⟩
          have hne0 : ¬ r0.question_id = qid := fun h => hqid h.symm
          simp [beq_iff_eq, ht0, hp0, hne0]
        simp [reorderUpdates, hfirst, hsecond]

/-- Counterexample for C9: `[2, 1]` is a genuine permutation of test 1's
question ids in the attempt-free `tcDB` (the endpoint's own sorted-list
check accepts it), yet positions are not rewritten: the first UPDATE moves
question 2 to position 0 while question 1 still holds position 0, the
non-deferrable unique `(test_id, position)` index fires, and the request
dies with the unhandled IntegrityError, persisting nothing. -/
theorem C9_permutation_reorder_fails :
    sortInts (currentIds tcDB 1) = sortInts [2, 1] ∧
    test_question_order tcDB teacher10 1 [2, 1] = .error errPositionConflict :=
  ⟨rfl, rfl⟩

/-- C9 (amended): for an editable test (owner caller, no attempts) whose
position-sorted rows occupy the gapless block `0..n-1`, `reorder` with a
list that is not a permutation of the current question-id multiset fails
with the ValidationError and changes nothing; with a permutation, the
per-statement unique-`(test_id, position)` check decides the outcome: the
identity order (the ids in their current position order) completes and
leaves the table exactly as it was, while every other permutation aborts
with the unhandled IntegrityError (HTTP 500) and persists nothing. -/
theorem C9_reorder_unique_position_gate (db : DB) (cur : CurrentUser)
    (tid : Int) (test : Test) (course : Course)
    (hft : findTest db tid = some test)
    (hfc : findCourse db test.course_id = some course)
    (hcnt : (db.attempts.filter (fun a => a.test_id == test.id)).length = 0)
    (howner : course.teacher_id = cur.user_id)
    (hnd : (currentIds db tid).Nodup)
    (hgap : posSeq tid 0 (orderedTestQuestions db tid) = true) :
    ∀ new_order : List Int,
    (¬ (currentIds db tid).Perm new_order →
      test_question_order db cur tid new_order = .error errOrderMismatch) ∧
    ((currentIds db tid).Perm new_order →
      (new_order = (orderedTestQuestions db tid).map (fun r => r.question_id) →
        test_question_order db cur tid new_order = .ok db) ∧
      (new_order ≠ (orderedTestQuestions db tid).map (fun r => r.question_id) →
        test_question_order db cur tid new_order = .error errPositionConflict)) := by
  have pm : ((orderedTestQuestions db tid).map (fun r => r.question_id)).Perm
      (currentIds db tid) :=
    (List.perm_insertionSort _ _).map _
  have hsub : ∀ r ∈ orderedTestQuestions db tid, r ∈ db.testQuestions :=
    fun r hr => ((mem_ordered_iff db tid r).mp hr).1
  have hcover : ∀ r ∈ db.testQuestions, r.test_id = tid →
      (0 : Int) ≤ r.position → r ∈ orderedTestQuestions db tid :=
    fun r hr htid _ => (mem_ordered_iff db tid r).mpr ⟨hr, htid⟩
  have hndo : ((orderedTestQuestions db tid).map
      (fun r => r.question_id)).Nodup := pm.symm.nodup hnd
  have hdisj : ∀ r ∈ db.testQuestions, r.test_id = tid → r.position < 0 →
      ∀ r2 ∈ orderedTestQuestions db tid, r.question_id ≠ r2.question_id := by
    intro r hr htid hlt r2 _
    have hmem := (mem_ordered_iff db tid r).mpr ⟨hr, htid⟩
    have := (posSeq_mem tid _ 0 hgap r hmem).2
    omega
  intro new_order
  constructor
  · intro hnp
    have hsort : sortInts (List.map (fun tq => tq.question_id)
        (List.filter (fun tq => tq.test_id == tid) db.testQuestions)) ≠
        sortInts new_order :=
      fun h => hnp ((sortInts_eq_iff _ _).mp h)
    simp [test_question_order, ensure_can_edit_test, hft, hfc, hcnt, howner,
      hsort]
  · intro hp
    have hsort : sortInts (List.map (fun tq => tq.question_id)
        (List.filter (fun tq => tq.test_id == tid) db.testQuestions)) =
        sortInts new_order :=
      (sortInts_eq_iff _ _).mpr hp
    constructor
    · intro hid
      have hrun := reorderUpdates_identity tid (orderedTestQuestions db tid) 0
        db.testQuestions hgap hsub hcover hndo hdisj
      rw [← hid] at hrun
      simp [test_question_order, ensure_can_edit_test, hft, hfc, hcnt, howner,
        hsort, hrun]
    · intro hnid
      have hperm2 : new_order.Perm
          ((orderedTestQuestions db tid).map (fun r => r.question_id)) :=
        hp.symm.trans pm.symm
      have hrun := reorderUpdates_error tid new_order
        (orderedTestQuestions db tid) 0 db.testQuestions hgap hsub hcover hndo
        hdisj hperm2 hnid
      simp [test_question_order, ensure_can_edit_test, hft, hfc, hcnt, howner,
        hsort, hrun]

/-- Witness for C9: in the attempt-free `tcDB` (positions 0, 1) the
teacher's reorder `[2]` fails the permutation gate, the identity order
`[1, 2]` completes and changes nothing, and the genuine reordering `[2, 1]`
dies with the unhandled IntegrityError. -/
theorem C9_reorder_unique_position_gate_witness :
    test_question_order tcDB teacher10 1 [2] = .error errOrderMismatch ∧
    test_question_order tcDB teacher10 1 [1, 2] = .ok tcDB ∧
    test_question_order tcDB teacher10 1 [2, 1] = .error errPositionConflict := by
  refine ⟨?_, ?_, ?_⟩
  · exact (C9_reorder_unique_position_gate tcDB teacher10 1
      ⟨1, 1, 10, true, false⟩ ⟨1, 10, false⟩ (by decide) (by decide)
      (by decide) (by decide) (by decide) (by decide) [2]).1 (by decide)
  · exact ((C9_reorder_unique_position_gate tcDB teacher10 1
      ⟨1, 1, 10, true, false⟩ ⟨1, 10, false⟩ (by decide) (by decide)
      (by decide) (by decide) (by decide) (by decide) [1, 2]).2
      (by decide)).1 (by decide)
  · exact ((C9_reorder_unique_position_gate tcDB teacher10 1
      ⟨1, 1, 10, true, false⟩ ⟨1, 10, false⟩ (by decide) (by decide)
      (by decide) (by decide) (by decide) (by decide) [2, 1]).2
      (by decide)).2 (by decide)

/-! ### C2 -/

/-- Under `(question_id, version)` key uniqueness, an existential scan for a
key-and-correct match agrees with first finding the key row and then testing
its `correct_index` (the SQL join against the primary key). -/
theorem any_correct_eq_find (qid ver idx : Int) :
    ∀ (l : List QuestionVersion),
    (l.map (fun v => (v.question_id, v.version))).Nodup →
    l.any (fun qv => qv.question_id == qid && qv.version == ver &&
      qv.correct_index == idx) =
    (match l.find? (fun v => v.question_id == qid && v.version == ver) with
     | some qv => qv.correct_index == idx
     | none => false) := by
  intro l
  induction l with
  | nil => intro _; simp
  | cons v vs ih =>
    intro hnd
    have hnd' : (vs.map (fun w => (w.question_id, w.version))).Nodup :=
      hnd.of_cons
    cases hkey : (v.question_id == qid && v.version == ver) with
    | true =>
      obtain ⟨hk1, hk2⟩ : v.question_id = qid ∧ v.version = ver := by
        simpa [Bool.and_eq_true] using hkey
      by_cases hcor : (v.correct_index == idx) = true
      · simp [List.any_cons, List.find?_cons, hkey, hcor]
      · have hno : vs.any (fun qv => qv.question_id == qid &&
            qv.version == ver && qv.correct_index == idx) = false := by
          rw [List.any_eq_false]
          intro w hw hcontra
          have hwkey : w.question_id = qid ∧ w.version = ver := by
            have := (Bool.and_eq_true _ _).mp hcontra
            simpa [Bool.and_eq_true] using this.1
          have hmem : (v.question_id, v.version) ∈
              vs.map (fun w => (w.question_id, w.version)) := by
            rw [List.mem_map]
            exact ⟨w, hw, by rw [hwkey.1, hwkey.2, hk1, hk2]⟩
          exact (List.nodup_cons.mp hnd).1 hmem
        simp [List.any_cons, List.find?_cons, hkey, hcor, hno]
    | false =>
      simp only [List.any_cons, List.find?_cons, hkey, Bool.false_and,
        Bool.false_or]
      exact ih hnd'

/-- With unique version keys, the source's two-step check (`find?` the
pinned row, compare `correct_index`) coincides with the spec's phrasing. -/
theorem answerIsCorrect_eq_spec (db : DB) (hkeys : qvKeysNodup db)
    (a : Answer) :
    (a.answer_index != -1 && answerMatchesPinned db a) = answerIsCorrect db a := by
  unfold answerIsCorrect answerMatchesPinned lookupQV
  rw [any_correct_eq_find a.question_id a.question_version a.answer_index
    db.questionVersions hkeys]
  cases hf : db.questionVersions.find? (fun v =>
      v.question_id == a.question_id && v.version == a.question_version) with
  | none => rfl
  | some qv =>
    by_cases h : a.answer_index = qv.correct_index
    · simp [h]
    · have h' : ¬ qv.correct_index = a.answer_index := fun hh => h hh.symm
      have e1 : (qv.correct_index == a.answer_index) = false :=
        beq_eq_false_iff_ne.mpr h'
      have e2 : (a.answer_index == qv.correct_index) = false :=
        beq_eq_false_iff_ne.mpr h
      simp [e1, e2]

/-- C2: for an authorized caller (course teacher or `test:answer:read`
holder) and an existing attempt, `test_user_grade` returns exactly the
spec-4.6 numbers: `total` = count of the attempt's answers, `correct` =
count of given answers matching the pinned version's `correct_index`, and
`grade_percent = round(100 * correct / total)` with `0` for an answerless
attempt. -/
theorem C2_grade_formula (db : DB) (cur : CurrentUser) (tid uid : Int)
    (test : Test) (course : Course) (att : Attempt)
    (hft : findTest db tid = some test)
    (hfc : findCourse db test.course_id = some course)
    (hauth : course.teacher_id = cur.user_id ∨
      has_perm cur "test:answer:read" = true)
    (hatt : findAttemptByTestUser db test.id uid = some att)
    (hkeys : qvKeysNodup db) :
    test_user_grade db cur tid uid =
      .ok ⟨test.id, uid, att.id, spec_correct db att.id, spec_total db att.id,
           spec_grade db att.id⟩ := by
  have hgtc : get_test_course db tid = some (test, course) := by
    simp [get_test_course, hft, hfc]
  have hens : ensure_teacher_or_perm course cur "test:answer:read" = .ok () := by
    rcases hauth with h | h
    · simp [ensure_teacher_or_perm, h]
    · simp [ensure_teacher_or_perm, h, ite_self]
  have htot : (db.answers.filter (fun a => a.attempt_id == att.id)).length =
      spec_total db att.id :=
    (List.countP_eq_length_filter _ _).symm
  have hcor : (db.answers.filter (fun a =>
      a.attempt_id == att.id && answerIsCorrect db a)).length =
      spec_correct db att.id := by
    unfold spec_correct
    rw [List.countP_eq_length_filter]
    congr 1
    apply List.filter_congr
    intro a _
    rw [Bool.and_assoc, answerIsCorrect_eq_spec db hkeys a]
  simp only [test_user_grade, hgtc, hens, hatt]
  by_cases h0 : spec_total db att.id = 0
  · have hcz : spec_correct db att.id = 0 := by
      have hle : spec_correct db att.id ≤ spec_total db att.id := by
        apply List.countP_mono_left
        intro a _ ha
        exact ((Bool.and_eq_true _ _).mp ((Bool.and_eq_true _ _).mp ha).1).1
      omega
    simp [htot, h0, spec_grade, hcz]
  · simp [htot, h0, hcor, spec_grade]

/-- C2 witness: the spec's example — pinned `correct_index` `[1, 0, 2, 1]`,
submitted answers `[1, -1, 2, 0]` — grades to `correct = 2`, `total = 4`,
`grade_percent = 50`. -/
theorem C2_grade_formula_witness :
    test_user_grade gradeDB teacher10 1 2 = .ok ⟨1, 2, 1, 2, 4, 50⟩ :=
  C2_grade_formula gradeDB teacher10 1 2 ⟨1, 1, 10, true, false⟩ ⟨1, 10, false⟩
    ⟨1, 1, 2, AStatus.in_progress⟩ (by decide) (by decide) (Or.inl (by decide))
    (by decide) (by unfold qvKeysNodup; decide)

/-! ### C1 -/

/-- Appending a row that the predicate rejects does not change `find?`. -/
theorem find?_append_single {α : Type} (p : α → Bool) (l : List α) (x : α)
    (hx : p x = false) : List.find? p (l ++ [x]) = List.find? p l := by
  rw [List.find?_append]
  cases h : List.find? p l <;> simp [List.find?_cons, hx]

/-- Publishing a version row whose `(question_id, version)` key differs from
an answer's pinned key leaves that answer's correctness unchanged. -/
theorem answerIsCorrect_append_frame (db : DB) (vnew : QuestionVersion)
    (a : Answer)
    (hkey : (vnew.question_id == a.question_id &&
      vnew.version == a.question_version) = false) :
    answerIsCorrect
      { db with questionVersions := db.questionVersions ++ [vnew] } a =
    answerIsCorrect db a := by
  unfold answerIsCorrect lookupQV
  have hqv : ({ db with questionVersions := db.questionVersions ++ [vnew] } :
      DB).questionVersions = db.questionVersions ++ [vnew] := rfl
  rw [hqv, find?_append_single
    (fun v => v.question_id == a.question_id && v.version == a.question_version)
    db.questionVersions vnew hkey]

/-- The whole grading read is stable under appending a version row whose key
matches no answer of the store. -/
theorem test_user_grade_append_frame (db : DB) (vnew : QuestionVersion)
    (cur2 : CurrentUser)
    (hfresh : ∀ a ∈ db.answers,
      (vnew.question_id == a.question_id &&
        vnew.version == a.question_version) = false) :
    ∀ tid uid,
    test_user_grade
      { db with questionVersions := db.questionVersions ++ [vnew] }
      cur2 tid uid =
    test_user_grade db cur2 tid uid := by
  intro tid uid
  unfold test_user_grade
  have hgtc : get_test_course
      { db with questionVersions := db.questionVersions ++ [vnew] } tid =
      get_test_course db tid := rfl
  rw [hgtc]
  cases get_test_course db tid with
  | none => rfl
  | some tc =>
    obtain ⟨test, course⟩ := tc
    dsimp only
    cases ensure_teacher_or_perm course cur2 "test:answer:read" with
    | error e => rfl
    | ok u =>
      dsimp only
      have hfa : findAttemptByTestUser
          { db with questionVersions := db.questionVersions ++ [vnew] }
          test.id uid = findAttemptByTestUser db test.id uid := rfl
      rw [hfa]
      cases findAttemptByTestUser db test.id uid with
      | none => rfl
      | some att =>
        dsimp only
        have hfilt : db.answers.filter (fun a => a.attempt_id == att.id &&
            answerIsCorrect
              { db with questionVersions := db.questionVersions ++ [vnew] }
              a) =
            db.answers.filter (fun a => a.attempt_id == att.id &&
              answerIsCorrect db a) := by
          apply List.filter_congr
          intro a ha
          rw [answerIsCorrect_append_frame db vnew a (hfresh a ha)]
        rw [hfilt]

/-- C1: when every stored answer pinned to question `id` carries a version
no newer than the question's current maximum, a successful
`question_update` (which appends version `max + 1`) changes no grading
result: `test_user_grade` returns the same correct count and
`grade_percent` for every test, user, and caller as before the new version
was published. -/
theorem C1_version_pinning_frame (db db2 : DB) (cur cur2 : CurrentUser)
    (id : Int) (title text optionsCsv : String) (ci v2 : Int)
    (hup : question_update db cur id title text optionsCsv ci = .ok (db2, v2))
    (hpin : ∀ a ∈ db.answers, a.question_id = id →
      a.question_version ≤ (maxVersion db id).getD 0) :
    ∀ tid uid, test_user_grade db2 cur2 tid uid = test_user_grade db cur2 tid uid := by
  unfold question_update at hup
  cases hq : findQuestion db id with
  | none => rw [hq] at hup; simp at hup
  | some q =>
    rw [hq] at hup
    dsimp only at hup
    by_cases hperm : (q.author_id != cur.user_id &&
        !has_perm cur "quest:update") = true
    · rw [if_pos hperm] at hup; simp at hup
    · rw [if_neg hperm] at hup
      by_cases hlen : (parse_csv_options optionsCsv).length < 2
      · rw [if_pos hlen] at hup; simp at hup
      · rw [if_neg hlen] at hup
        by_cases hrange : ci < 0 ∨
            ((parse_csv_options optionsCsv).length : Int) ≤ ci
        · rw [if_pos hrange] at hup; simp at hup
        · rw [if_neg hrange] at hup
          simp only [Except.ok.injEq, Prod.mk.injEq] at hup
          obtain ⟨h1, h2⟩ := hup
          subst h1
          intro tid uid
          apply test_user_grade_append_frame
          intro a ha
          by_cases hqid : a.question_id = id
          · have hv := hpin a ha hqid
            have hne : ¬ ((maxVersion db id).getD 0 + 1 = a.question_version) := by
              omega
            have hb : (((maxVersion db id).getD 0 + 1 : Int) ==
                a.question_version) = false := beq_eq_false_iff_ne.mpr hne
            simp [hb]
          · have hne : ¬ (id = a.question_id) := fun hh => hqid hh.symm
            have hb : ((id : Int) == a.question_id) = false :=
              beq_eq_false_iff_ne.mpr hne
            simp [hb]

/-- A state like `gradeDB` whose question 1 already carries two versions:
the attempt stays pinned to version 1 while version 2 flips the correct
answer. -/
def gradeDBv2 : DB :=
  { gradeDB with
    questionVersions := gradeDB.questionVersions ++
      [⟨1, 2, "q1b", "t1b", ["a", "b", "c"], 0⟩] }

/-- C1 witness: the author republishes question 1 of `gradeDB` with a
different `correct_index`; the stored attempt is pinned to version 1, so
its grade stays `correct = 2`, `total = 4`, `grade_percent = 50`. -/
theorem C1_version_pinning_frame_witness :
    question_update gradeDB teacher10 1 "q1b" "t1b" "a,b,c" 0 =
      .ok (gradeDBv2, 2) ∧
    test_user_grade gradeDBv2 teacher10 1 2 =
      test_user_grade gradeDB teacher10 1 2 := by
  have hpin : ∀ a ∈ gradeDB.answers, a.question_id = 1 →
      a.question_version ≤ (maxVersion gradeDB 1).getD 0 := by decide
  have h := C1_version_pinning_frame gradeDB gradeDBv2 teacher10 teacher10 1
    "q1b" "t1b" "a,b,c" 0 2 (by rfl) hpin
  exact ⟨by rfl, h 1 2⟩

/-! ### C8 -/

/-- If any listed question has no version row, the snapshot loop aborts with
an error (so nothing reaches the commit). -/
theorem buildSnapshot_error_of_missing (db : DB) (aid : Int) :
    ∀ (rows : List TestQuestion) (ansId : Int),
    (∃ tq ∈ rows, maxVersion db tq.question_id = none) →
    ∃ e, buildSnapshot db aid ansId rows = .error e := by
  intro rows
  induction rows with
  | nil => intro ansId h; simp at h
  | cons tq rest ih =>
    intro ansId h
    cases hm : maxVersion db tq.question_id with
    | none =>
      exact ⟨errQuestionNoVersions tq.question_id, by simp [buildSnapshot, hm]⟩
    | some v =>
      rcases h with ⟨tq', htq', hnone⟩
      rcases List.mem_cons.mp htq' with heq | hmem
      · rw [heq] at hnone; rw [hm] at hnone; cases hnone
      · obtain ⟨e, he⟩ := ih (ansId + 1) ⟨tq', hmem, hnone⟩
        exact ⟨e, by simp [buildSnapshot, hm, he]⟩

/-- When every listed question has a version, the snapshot loop stages
exactly one pinned `AttemptQuestion` and one initialized `Answer` per
question. -/
theorem buildSnapshot_ok (db : DB) (aid : Int) :
    ∀ (rows : List TestQuestion) (ansId : Int),
    (∀ tq ∈ rows, (maxVersion db tq.question_id).isSome = true) →
    buildSnapshot db aid ansId rows =
      .ok (pinnedAQs db aid rows, initAnswers db aid ansId rows) := by
  intro rows
  induction rows with
  | nil => intro ansId _; simp [buildSnapshot, pinnedAQs, initAnswers]
  | cons tq rest ih =>
    intro ansId h
    have h1 := h tq (List.mem_cons_self tq rest)
    cases hm : maxVersion db tq.question_id with
    | none => rw [hm] at h1; simp at h1
    | some v =>
      have hrest : ∀ tq' ∈ rest, (maxVersion db tq'.question_id).isSome = true :=
        fun t ht => h t (List.mem_cons_of_mem _ ht)
      simp [buildSnapshot, hm, ih (ansId + 1) hrest, pinnedAQs, initAnswers]

/-- C8: for an active test with no prior attempt by the caller,
`attempt_create` is all-or-nothing: an empty question list fails with the
"Test has no questions" error and a question without versions fails with an
error, in both cases persisting nothing; otherwise it commits, in one step,
the new `in_progress` attempt plus exactly one `AttemptQuestion` (pinned at
the question's current maximum version, at the test's position) and one
`Answer` with `answer_index = -1` per test question. -/
theorem C8_attempt_create_atomic (db : DB) (cur : CurrentUser) (tid : Int)
    (test : Test)
    (hft : findTest db tid = some test)
    (hact : test.is_active = true)
    (hnoatt : findAttemptByTestUser db tid cur.user_id = none) :
    (orderedTestQuestions db tid = [] →
      attempt_create db cur tid = .error errNoQuestions) ∧
    ((∃ tq ∈ orderedTestQuestions db tid, maxVersion db tq.question_id = none) →
      ∃ e, attempt_create db cur tid = .error e) ∧
    (orderedTestQuestions db tid ≠ [] →
      (∀ tq ∈ orderedTestQuestions db tid,
        (maxVersion db tq.question_id).isSome = true) →
      attempt_create db cur tid =
        .ok ({ db with
               attempts := db.attempts ++
                 [⟨db.nextAttemptId, tid, cur.user_id, AStatus.in_progress⟩],
               attemptQuestions := db.attemptQuestions ++
                 pinnedAQs db db.nextAttemptId (orderedTestQuestions db tid),
               answers := db.answers ++
                 initAnswers db db.nextAttemptId db.nextAnswerId
                   (orderedTestQuestions db tid),
               nextAttemptId := db.nextAttemptId + 1,
               nextAnswerId := db.nextAnswerId +
                 (orderedTestQuestions db tid).length },
             db.nextAttemptId)) := by
  refine ⟨?_, ?_, ?_⟩
  · intro hemp
    simp [attempt_create, hft, hact, hnoatt, hemp]
  · intro hex
    have hne : orderedTestQuestions db tid ≠ [] := by
      rcases hex with ⟨tq, htq, _⟩
      intro hc
      rw [hc] at htq
      cases htq
    obtain ⟨e, he⟩ := buildSnapshot_error_of_missing db db.nextAttemptId
      (orderedTestQuestions db tid) db.nextAnswerId hex
    refine ⟨e, ?_⟩
    simp [attempt_create, hft, hact, hnoatt, hne, he,
      List.isEmpty_iff]
  · intro hne hall
    have hok := buildSnapshot_ok db db.nextAttemptId
      (orderedTestQuestions db tid) db.nextAnswerId hall
    simp [attempt_create, hft, hact, hnoatt, hne, hok, List.isEmpty_iff]

/-- C8 witness: user 2 starts test 1 of the attempt-free `tcDB`; one
transaction writes the attempt, two pinned snapshot rows and two
initialized answers. -/
theorem C8_attempt_create_atomic_witness :
    attempt_create tcDB student2 1 =
      .ok ({ tcDB with
             attempts := [⟨1, 1, 2, AStatus.in_progress⟩],
             attemptQuestions := [⟨1, 1, 1, 0⟩, ⟨1, 2, 1, 1⟩],
             answers := [⟨1, 1, 1, 1, -1⟩, ⟨2, 1, 2, 1, -1⟩],
             nextAttemptId := 2, nextAnswerId := 3 }, 1) :=
  (C8_attempt_create_atomic tcDB student2 1 ⟨1, 1, 10, true, false⟩
    (by decide) (by decide) (by decide)).2.2 (by decide) (by decide)

end Quiz
